import Mathlib

/-! Geolocation API binding (`package maps`, `geolocation.go`).

A shallow embedding of `geolocation.go`: the request and response structures with
their `json` struct tags, the endpoint descriptor `geolocationAPI`, and the
operation `Client.Geolocate`.

Conventions of the embedding.

* The strings of a request are Go strings in full: sequences of bytes (`gostring`),
  valid UTF-8 or not; the JSON encoder turns them into text and the decoder turns
  text back into bytes. The strings of a response, of an error and of the endpoint
  descriptor are only handed on by this file, never re-encoded, and are kept as
  text (`String`), as are the keys of JSON objects.
* A Go slice is a `List`; the nil slice and the empty slice both are `[]` (they
  have the same length, which is all the code and the encoder look at).
* `uint64`, `int` and `float64` are bounded: `uint64` is a number below `2^64`,
  `int` a 64-bit signed integer, and a `float64` is its IEEE-754 bit pattern, so
  that NaN, the infinities and the two zeros are values of the type.
* A nilable Go value (`*T`, `error`) is an `Option`.
* `Client.postJSON` is not part of `geolocation.go`; the client carries it as a
  field, together with the type of the state it runs in.
-/

namespace maps

/-! ## Machine types -/

/-- Go `uint64`. -/
abbrev uint64 : Type := Fin 18446744073709551616

/-- Go `int` (64 bits wide). -/
abbrev int : Type := { i : Int // -9223372036854775808 ≤ i ∧ i ≤ 9223372036854775807 }

/-- The `int` zero. -/
def int.zero : int := ⟨0, by decide⟩

/-- Go `float64`, given by its IEEE-754 bit pattern (`math.Float64bits`):
bit 63 is the sign, bits 62..52 the biased exponent, bits 51..0 the mantissa. -/
structure float64 where
  bits : uint64
deriving DecidableEq

/-- The biased exponent field. -/
def float64.exponent (f : float64) : Nat := f.bits.val / 4503599627370496 % 2048

/-- The mantissa field. -/
def float64.mantissa (f : float64) : Nat := f.bits.val % 4503599627370496

/-- `math.IsNaN`. -/
def float64.IsNaN (f : float64) : Bool := f.exponent == 2047 && f.mantissa != 0

/-- `math.IsInf(f, 0)`. -/
def float64.IsInf (f : float64) : Bool := f.exponent == 2047 && f.mantissa == 0

/-- The Go comparison `f == 0`: true of `+0` and of `-0`. -/
def float64.isZero (f : float64) : Bool := f.exponent == 0 && f.mantissa == 0

/-- The Go comparison `a == b` on `float64`: NaN equals nothing, the two zeros
equal each other, every other value equals only itself. -/
def float64.eq (a b : float64) : Bool :=
  !a.IsNaN && !b.IsNaN && (decide (a = b) || (a.isZero && b.isZero))

/-- The zero value `+0`. -/
def float64.zero : float64 := ⟨0⟩

/-! ## Strings and UTF-8 -/

/-- Go `byte`. -/
abbrev byte : Type := Fin 256

/-- The byte with the given value (taken modulo 256). -/
def byte.ofNat (n : Nat) : byte := ⟨n % 256, Nat.mod_lt n (by decide)⟩

/-- The rune U+FFFD, `utf8.RuneError`. -/
def utf8.RuneError : Char := Char.ofNat 0xFFFD

/-- The UTF-8 encoding of a rune, `utf8.EncodeRune`: one to four bytes. -/
def utf8.EncodeRune (c : Char) : List byte :=
  if c.toNat < 0x80 then [byte.ofNat c.toNat]
  else if c.toNat < 0x800 then
    [byte.ofNat (0xC0 + c.toNat / 64), byte.ofNat (0x80 + c.toNat % 64)]
  else if c.toNat < 0x10000 then
    [byte.ofNat (0xE0 + c.toNat / 4096), byte.ofNat (0x80 + c.toNat / 64 % 64),
     byte.ofNat (0x80 + c.toNat % 64)]
  else
    [byte.ofNat (0xF0 + c.toNat / 262144), byte.ofNat (0x80 + c.toNat / 4096 % 64),
     byte.ofNat (0x80 + c.toNat / 64 % 64), byte.ofNat (0x80 + c.toNat % 64)]

/-- A continuation byte: `10xxxxxx`. -/
def utf8.continuation (b : byte) : Bool := 0x80 ≤ b.val && b.val ≤ 0xBF

/-- The rune of a well-formed two-byte encoding (lead byte C2..DF). -/
def utf8.decode2 (b0 b1 : byte) : Option Char :=
  if 0xC2 ≤ b0.val && b0.val ≤ 0xDF && utf8.continuation b1 then
    some (Char.ofNat (b0.val % 32 * 64 + b1.val % 64))
  else none

/-- The rune of a well-formed three-byte encoding (lead byte E0..EF; after E0 the
second byte is at least A0, which excludes overlong forms, and after ED at most 9F,
which excludes surrogates). -/
def utf8.decode3 (b0 b1 b2 : byte) : Option Char :=
  if 0xE0 ≤ b0.val && b0.val ≤ 0xEF && utf8.continuation b1 && utf8.continuation b2 &&
      (b0.val != 0xE0 || 0xA0 ≤ b1.val) && (b0.val != 0xED || b1.val ≤ 0x9F) then
    some (Char.ofNat (b0.val % 16 * 4096 + b1.val % 64 * 64 + b2.val % 64))
  else none

/-- The rune of a well-formed four-byte encoding (lead byte F0..F4; after F0 the
second byte is at least 90, after F4 at most 8F). -/
def utf8.decode4 (b0 b1 b2 b3 : byte) : Option Char :=
  if 0xF0 ≤ b0.val && b0.val ≤ 0xF4 && utf8.continuation b1 && utf8.continuation b2 &&
      utf8.continuation b3 && (b0.val != 0xF0 || 0x90 ≤ b1.val) &&
      (b0.val != 0xF4 || b1.val ≤ 0x8F) then
    some (Char.ofNat (b0.val % 8 * 262144 + b1.val % 64 * 4096 + b2.val % 64 * 64 + b3.val % 64))
  else none

/-- The first rune of a byte sequence and its width in bytes, `utf8.DecodeRune`.
Where Go returns `(RuneError, 1)` for a byte that starts no well-formed encoding,
the rune here is `none` and the width 1; the empty sequence has width 0. -/
def utf8.DecodeRune : List byte → Option Char × Nat
  | [] => (none, 0)
  | b0 :: rest =>
    if b0.val < 0x80 then (some (Char.ofNat b0.val), 1)
    else
      match rest with
      | [] => (none, 1)
      | b1 :: rest1 =>
        match utf8.decode2 b0 b1 with
        | some c => (some c, 2)
        | none =>
          match rest1 with
          | [] => (none, 1)
          | b2 :: rest2 =>
            match utf8.decode3 b0 b1 b2 with
            | some c => (some c, 3)
            | none =>
              match rest2 with
              | [] => (none, 1)
              | b3 :: _ =>
                match utf8.decode4 b0 b1 b2 b3 with
                | some c => (some c, 4)
                | none => (none, 1)

/-- The loop that decodes one rune at the front of `s` and moves on by its width,
run for at most `fuel` steps: the runes of `s` in order, `none` standing for a
byte that starts no well-formed encoding. -/
def utf8.decodeRunesAux : Nat → List byte → List (Option Char)
  | 0, _ => []
  | fuel + 1, s =>
    match s with
    | [] => []
    | b :: rest =>
      (utf8.DecodeRune (b :: rest)).1 ::
        utf8.decodeRunesAux fuel ((b :: rest).drop (utf8.DecodeRune (b :: rest)).2)

/-- The runes of a byte sequence. Every step consumes at least one byte, so a
number of steps equal to the length reaches the end. -/
def utf8.decodeRunes (s : List byte) : List (Option Char) := utf8.decodeRunesAux s.length s

/-- Whether a byte sequence is valid UTF-8, `utf8.Valid`. -/
def utf8.Valid (s : List byte) : Bool := (utf8.decodeRunes s).all Option.isSome

/-- A Go `string`: a sequence of bytes, not necessarily valid UTF-8. -/
structure gostring where
  bytes : List byte
deriving DecidableEq

/-- The Go string that holds the UTF-8 encoding of a text. -/
def gostring.ofText (t : String) : gostring := ⟨(t.data.map utf8.EncodeRune).flatten⟩

/-- The text of a Go string, each byte that starts no well-formed encoding read as
U+FFFD. -/
def gostring.toText (s : gostring) : String :=
  String.mk ((utf8.decodeRunes s.bytes).map (fun r => r.getD utf8.RuneError))

/-- Whether a Go string is valid UTF-8, `utf8.ValidString`. -/
def gostring.Valid (s : gostring) : Bool := utf8.Valid s.bytes

/-- A string literal of the source, as the Go string of its UTF-8 encoding. -/
instance : Coe String gostring := ⟨gostring.ofText⟩

/-! ## Data model -/

/-- Modelled from the spec: the type `LatLng` is declared outside `geolocation.go`;
the spec describes it as a geographic coordinate pair (latitude/longitude). -/
structure LatLng where
  Lat : float64
  Lng : float64
deriving DecidableEq

/-- Modelled from the spec: the type `apiConfig` is declared outside
`geolocation.go`; the spec describes it as an endpoint descriptor (host, path,
whether it accepts a client-ID-based credential), and the composite literal
`geolocationAPI` names the three fields. -/
structure apiConfig where
  host : String
  path : String
  acceptsClientID : Bool
deriving DecidableEq

/-- The endpoint descriptor of the Geolocation API. -/
def geolocationAPI : apiConfig :=
  { host := "https://www.googleapis.com"
    path := "/geolocation/v1/geolocate"
    acceptsClientID := true }

/-- RadioType defines mobile radio types. -/
abbrev RadioType : Type := gostring

def RadioTypeLTE : RadioType := "lte"
def RadioTypeGSM : RadioType := "gsm"
def RadioTypeCDMA : RadioType := "cdma"
def RadioTypeWCDMA : RadioType := "wcdma"

/-- CellTower is a cell tower object for localisation requests. -/
structure CellTower where
  CellID : gostring
  LocationAreaCode : gostring
  MobileCountryCode : gostring
  MobileNetworkCode : gostring
deriving DecidableEq

/-- WiFiAccessPoint is a WiFi access point object for localisation requests. -/
structure WiFiAccessPoint where
  MACAddress : gostring
  SignalStrength : float64
  Age : uint64
  Channel : int
  SignalToNoiseRatio : float64
deriving DecidableEq

/-- GeolocationRequest is the request structure for Geolocation API. -/
structure GeolocationRequest where
  HomeMobileCountryCode : gostring
  HomeMobileNetworkCode : gostring
  RadioType : RadioType
  Carrier : gostring
  ConsiderIP : Bool
  CellTowers : List CellTower
  WiFiAccessPoints : List WiFiAccessPoint
deriving DecidableEq

/-- GeolocationResult is an approximate location and accuracy. -/
structure GeolocationResult where
  Location : LatLng
  Accuracy : float64
deriving DecidableEq

/-- One element of `GeolocationError.Errors` (an anonymous struct in the source). -/
structure GeolocationErrorItem where
  Domain : String
  Reason : String
  Message : String
deriving DecidableEq

/-- GeolocationError is an error object reporting a request error. -/
structure GeolocationError where
  Errors : List GeolocationErrorItem
  Code : int
  Message : String
deriving DecidableEq

/-- The local variable `response` of `Geolocate`: an anonymous struct that embeds
`GeolocationResult` and has a field `Error`. -/
structure GeolocateResponse where
  GeolocationResult : GeolocationResult
  Error : GeolocationError
deriving DecidableEq

/-- The zero value of `response`, as `var response struct ...` declares it. -/
def GeolocateResponse.zero : GeolocateResponse :=
  { GeolocationResult := { Location := { Lat := float64.zero, Lng := float64.zero }
                           Accuracy := float64.zero }
    Error := { Errors := [], Code := int.zero, Message := "" } }

/-! ## Errors and `fmt.Errorf` -/

/-- A non-nil Go `error` value: either an `*errors.errorString` (what `errors.New`
and a `fmt.Errorf` without `%w` build) holding its text, or an error of any other
dynamic type, drawn from `ε`. -/
inductive GoError (ε : Type) where
  | errorString (s : String)
  | other (e : ε)
deriving DecidableEq

/-- The method `Error()`: the text of an error; `text` gives it for the dynamic
types in `ε`. -/
def GoError.Error {ε : Type} (text : ε → String) : GoError ε → String
  | .errorString s => s
  | .other e => text e

/-- What `fmt` writes for a string operand under a verb: the operand itself for
`%s` and `%v`, and the bad-verb form `%!c(string=operand)` otherwise. The verbs
`q`, `x` and `X`, flags, widths and precisions are not part of this fragment of
`fmt`; `geolocation.go` uses the directive `%s` only. -/
def printArg (arg : String) (verb : Char) : String :=
  if verb = 's' ∨ verb = 'v' then arg
  else "%!" ++ verb.toString ++ "(string=" ++ arg ++ ")"

/-- The operands a format did not consume, as `fmt` reports them. -/
def extraArgs (args : List String) : String :=
  "%!(EXTRA " ++ ", ".intercalate (args.map (fun a => "string=" ++ a)) ++ ")"

/-- The loop of `fmt`'s `doPrintf` over string operands: ordinary characters are
copied, `%%` writes a percent sign, a verb consumes the next operand, a verb with
no operand left writes `%!c(MISSING)`, a `%` that ends the format writes
`%!(NOVERB)`, and operands left over are reported at the end. -/
def doPrintf : List Char → List String → String
  | [], [] => ""
  | [], a :: as => extraArgs (a :: as)
  | c :: [], args =>
    if c = '%' then "%!(NOVERB)" ++ doPrintf [] args
    else c.toString ++ doPrintf [] args
  | c :: d :: fmt, args =>
    if c = '%' then
      if d = '%' then "%" ++ doPrintf fmt args
      else
        match args with
        | [] => "%!" ++ d.toString ++ "(MISSING)" ++ doPrintf fmt []
        | a :: as => printArg a d ++ doPrintf fmt as
    else c.toString ++ doPrintf (d :: fmt) args

/-- `fmt.Sprintf` over string operands. -/
def Sprintf (format : String) (args : List String) : String :=
  doPrintf format.data args

/-- `fmt.Errorf` for a format without `%w`: an `errorString` holding the formatted
text. -/
def Errorf {ε : Type} (format : String) (args : List String) : GoError ε :=
  .errorString (Sprintf format args)

/-! ## The client and `Geolocate` -/

/-- The part of `*Client` that `Geolocate` uses: its method `postJSON`, which is
declared outside `geolocation.go`. `κ` is `context.Context`, `σ` the state the
transport runs in (network, credentials, rate limiter) and `ε` the dynamic types
of its errors. A call `c.postJSON(ctx, config, apiReq, resp)` receives the
response slot `*resp` and the state, and yields the returned `error`, what it
left in `*resp`, and the state after the call. -/
structure Client (κ σ ε : Type) where
  postJSON : κ → apiConfig → Option GeolocationRequest → GeolocateResponse → σ →
    (Option (GoError ε) × GeolocateResponse) × σ

/-- Geolocate makes a Geolocation API request. The request `r` is a
`*GeolocationRequest` (nil or a request); the result pair is
`(*GeolocationResult, error)`. -/
def Client.Geolocate {κ σ ε : Type} (c : Client κ σ ε) (ctx : κ)
    (r : Option GeolocationRequest) (w : σ) :
    (Option GeolocationResult × Option (GoError ε)) × σ :=
  let response := GeolocateResponse.zero
  match c.postJSON ctx geolocationAPI r response w with
  | ((some err, _), w1) => ((none, some err), w1)
  | ((none, response), w1) =>
    if response.Error.Code.val ≠ 0 ∨ response.Error.Errors.length > 0 then
      ((none, some (Errorf "%s" [response.Error.Message])), w1)
    else
      ((some response.GeolocationResult, none), w1)

/-- One call of `postJSON` as the transport sees it. -/
structure PostCall (κ : Type) where
  ctx : κ
  config : apiConfig
  apiReq : Option GeolocationRequest
  resp : GeolocateResponse

/-- The client `c` with a journal: every `postJSON` call is appended to a log of
calls kept next to the state of `c`, and is otherwise answered by `c`. -/
def Client.recording {κ σ ε : Type} (c : Client κ σ ε) : Client κ (σ × List (PostCall κ)) ε :=
  { postJSON := fun ctx config apiReq resp w =>
      let out := c.postJSON ctx config apiReq resp w.1
      (out.1, (out.2, w.2 ++ [{ ctx := ctx, config := config, apiReq := apiReq, resp := resp }])) }

/-! ## JSON encoding of the request structures (`encoding/json` under the struct tags) -/

/-- A JSON value, as `encoding/json` writes and reads it. `L` is the type of number
literals; object members keep their order. String escaping and white space are
not represented: a JSON string is the text it denotes. -/
inductive JSON (L : Type) where
  | null
  | bool (b : Bool)
  | num (lit : L)
  | str (s : String)
  | arr (elems : List (JSON L))
  | obj (members : List (String × JSON L))

/-- The functions of `strconv` that `encoding/json` uses to write and read number
literals. They are declared outside this repository and are taken as a parameter:
`FormatUint`/`ParseUint` at base 10 and 64 bits, `FormatInt`/`ParseInt` likewise,
and `FormatFloat` with precision `-1` (the shortest literal that identifies the
value) with `ParseFloat` at 64 bits. A parser yields `none` where `strconv`
reports an error. -/
structure Strconv (L : Type) where
  FormatUint : uint64 → L
  ParseUint : L → Option uint64
  FormatInt : int → L
  ParseInt : L → Option int
  FormatFloat : float64 → L
  ParseFloat : L → Option float64

/-- The contract of `strconv`: a literal it writes is parsed back to the value it
was written from (for floats: finite ones, the only ones JSON has literals for). -/
structure Strconv.RoundTrips {L : Type} (sc : Strconv L) : Prop where
  uint : ∀ n, sc.ParseUint (sc.FormatUint n) = some n
  int : ∀ i, sc.ParseInt (sc.FormatInt i) = some i
  float : ∀ f, f.IsInf = false → f.IsNaN = false → sc.ParseFloat (sc.FormatFloat f) = some f

/-- The error `json.Marshal` returns for a float that JSON cannot express. -/
inductive MarshalError where
  | UnsupportedValueError (f : float64)
deriving DecidableEq

/-- String values encode as JSON strings coerced to valid UTF-8: each invalid byte
is replaced by the Unicode replacement rune U+FFFD. -/
def stringEncoder {L : Type} (s : gostring) : Except MarshalError (JSON L) :=
  .ok (.str s.toText)

/-- Boolean values encode as JSON booleans. -/
def boolEncoder {L : Type} (b : Bool) : Except MarshalError (JSON L) :=
  .ok (.bool b)

/-- Unsigned integers encode as JSON numbers. -/
def uintEncoder {L : Type} (sc : Strconv L) (n : uint64) : Except MarshalError (JSON L) :=
  .ok (.num (sc.FormatUint n))

/-- Signed integers encode as JSON numbers. -/
def intEncoder {L : Type} (sc : Strconv L) (i : int) : Except MarshalError (JSON L) :=
  .ok (.num (sc.FormatInt i))

/-- Floats encode as JSON numbers; NaN and the infinities are rejected with an
`UnsupportedValueError`. -/
def floatEncoder {L : Type} (sc : Strconv L) (f : float64) : Except MarshalError (JSON L) :=
  if f.IsInf || f.IsNaN then .error (.UnsupportedValueError f)
  else .ok (.num (sc.FormatFloat f))

/-- Runs a fallible function over a list, left to right, stopping at the first
error. -/
def traverse {E α β : Type} (f : α → Except E β) : List α → Except E (List β)
  | [] => .ok []
  | x :: xs =>
    match f x with
    | .error e => .error e
    | .ok y =>
      match traverse f xs with
      | .error e => .error e
      | .ok ys => .ok (y :: ys)

/-- Slices encode as JSON arrays, element by element in order. (A nil slice would
encode as `null`; both slice fields of this package are `omitempty`, so a slice of
length 0 never reaches the encoder.) -/
def sliceEncoder {L α : Type} (enc : α → Except MarshalError (JSON L)) (xs : List α) :
    Except MarshalError (JSON L) :=
  match traverse enc xs with
  | .error e => .error e
  | .ok elems => .ok (.arr elems)

/-- One struct field as the struct encoder sees it: the key from the `json` tag,
whether the tag says `omitempty`, whether the value is empty (`isEmptyValue`), and
the encoding of the value. -/
structure FieldEnc (L : Type) where
  name : String
  omitEmpty : Bool
  isEmptyValue : Bool
  value : Except MarshalError (JSON L)

/-- A `string` field: empty when its length is 0. -/
def FieldEnc.string {L : Type} (name : String) (omitEmpty : Bool) (s : gostring) : FieldEnc L :=
  { name := name, omitEmpty := omitEmpty, isEmptyValue := s.bytes.length == 0,
    value := stringEncoder s }

/-- A `bool` field: empty when false. -/
def FieldEnc.bool {L : Type} (name : String) (omitEmpty : Bool) (b : Bool) : FieldEnc L :=
  { name := name, omitEmpty := omitEmpty, isEmptyValue := !b, value := boolEncoder b }

/-- A `uint64` field: empty when 0. -/
def FieldEnc.uint {L : Type} (sc : Strconv L) (name : String) (omitEmpty : Bool) (n : uint64) :
    FieldEnc L :=
  { name := name, omitEmpty := omitEmpty, isEmptyValue := n.val == 0, value := uintEncoder sc n }

/-- An `int` field: empty when 0. -/
def FieldEnc.int {L : Type} (sc : Strconv L) (name : String) (omitEmpty : Bool) (i : int) :
    FieldEnc L :=
  { name := name, omitEmpty := omitEmpty, isEmptyValue := i.val == 0, value := intEncoder sc i }

/-- A `float64` field: empty when it compares equal to 0. -/
def FieldEnc.float {L : Type} (sc : Strconv L) (name : String) (omitEmpty : Bool) (f : float64) :
    FieldEnc L :=
  { name := name, omitEmpty := omitEmpty, isEmptyValue := f.isZero, value := floatEncoder sc f }

/-- A slice field: empty when its length is 0. -/
def FieldEnc.slice {L α : Type} (enc : α → Except MarshalError (JSON L)) (name : String)
    (omitEmpty : Bool) (xs : List α) : FieldEnc L :=
  { name := name, omitEmpty := omitEmpty, isEmptyValue := xs.length == 0,
    value := sliceEncoder enc xs }

/-- The struct encoder: the fields in declaration order; a field that is
`omitempty` and empty is skipped, every other field contributes its key and the
encoding of its value; the first encoding error aborts. -/
def structEncoder {L : Type} : List (FieldEnc L) → Except MarshalError (List (String × JSON L))
  | [] => .ok []
  | f :: fs =>
    if f.omitEmpty && f.isEmptyValue then structEncoder fs
    else
      match f.value with
      | .error e => .error e
      | .ok v =>
        match structEncoder fs with
        | .error e => .error e
        | .ok rest => .ok ((f.name, v) :: rest)

/-- `json.Marshal` of a struct with the given fields. -/
def marshalStruct {L : Type} (fields : List (FieldEnc L)) : Except MarshalError (JSON L) :=
  match structEncoder fields with
  | .error e => .error e
  | .ok members => .ok (.obj members)

/-- The fields of `CellTower` with their `json` tags. -/
def CellTower.fields {L : Type} (t : CellTower) : List (FieldEnc L) :=
  [ .string "cellId" true t.CellID,
    .string "locatonAreaCode" true t.LocationAreaCode,
    .string "mobileCountryCode" true t.MobileCountryCode,
    .string "mobileNetworkCode" true t.MobileNetworkCode ]

/-- `json.Marshal` of a `CellTower`. -/
def CellTower.Marshal {L : Type} (t : CellTower) : Except MarshalError (JSON L) :=
  marshalStruct t.fields

/-- The fields of `WiFiAccessPoint` with their `json` tags. -/
def WiFiAccessPoint.fields {L : Type} (sc : Strconv L) (ap : WiFiAccessPoint) : List (FieldEnc L) :=
  [ .string "macAddress" true ap.MACAddress,
    .float sc "signalStrength" true ap.SignalStrength,
    .uint sc "age" true ap.Age,
    .int sc "channel" true ap.Channel,
    .float sc "signalToNoiseRatio" true ap.SignalToNoiseRatio ]

/-- `json.Marshal` of a `WiFiAccessPoint`. -/
def WiFiAccessPoint.Marshal {L : Type} (sc : Strconv L) (ap : WiFiAccessPoint) :
    Except MarshalError (JSON L) :=
  marshalStruct (ap.fields sc)

/-- The fields of `GeolocationRequest` with their `json` tags. -/
def GeolocationRequest.fields {L : Type} (sc : Strconv L) (r : GeolocationRequest) :
    List (FieldEnc L) :=
  [ .string "homeMobileCountryCode" true r.HomeMobileCountryCode,
    .string "homeMobileNetworkCode" true r.HomeMobileNetworkCode,
    .string "radioType" true r.RadioType,
    .string "carrier" true r.Carrier,
    .bool "considerIp" false r.ConsiderIP,
    .slice CellTower.Marshal "cellTowers" true r.CellTowers,
    .slice (WiFiAccessPoint.Marshal sc) "wifiAccessPoints" true r.WiFiAccessPoints ]

/-- `json.Marshal` of a `GeolocationRequest`. -/
def GeolocationRequest.Marshal {L : Type} (sc : Strconv L) (r : GeolocationRequest) :
    Except MarshalError (JSON L) :=
  marshalStruct (r.fields sc)

/-! ## JSON decoding into the request structures -/

/-- The error `json.Unmarshal` returns when a JSON value does not fit the Go type
it is decoded into: the kind of the JSON value and the name of the Go type. -/
inductive UnmarshalError where
  | UnmarshalTypeError (value : String) (goType : String)
deriving DecidableEq

/-- The kind of a JSON value, as `UnmarshalTypeError` names it. -/
def JSON.kind {L : Type} : JSON L → String
  | .null => "null"
  | .bool _ => "bool"
  | .num _ => "number"
  | .str _ => "string"
  | .arr _ => "array"
  | .obj _ => "object"

/-- Case folding of one character of a key. The tags of this package are made of
ASCII letters, and the characters that fold to an ASCII letter are that letter in
either case, the long s (U+017F, folds to S) and the Kelvin sign (U+212A, folds to
K). -/
def foldRune (c : Char) : Char :=
  if c = Char.ofNat 0x017F then 'S'
  else if c = Char.ofNat 0x212A then 'K'
  else c.toUpper

/-- Whether a key matches a field name up to case folding. -/
def equalFold (name key : String) : Bool :=
  name.data.map foldRune == key.data.map foldRune

/-- The field an object key is decoded into: the field whose name is the key, or
else the first field whose name matches the key up to case folding; `none` when
there is no such field (the member is then skipped). -/
def findField (names : List String) (key : String) : Option Nat :=
  match names.findIdx? (fun n => n == key) with
  | some i => some i
  | none => names.findIdx? (fun n => equalFold n key)

/-- Decodes a JSON value into a `string` holding `cur`: `null` leaves it alone, a
JSON string sets it to the UTF-8 encoding of its text. -/
def decodeString {L : Type} (v : JSON L) (cur : gostring) : Except UnmarshalError gostring :=
  match v with
  | .null => .ok cur
  | .str s => .ok (gostring.ofText s)
  | w => .error (.UnmarshalTypeError w.kind "string")

/-- Decodes a JSON value into a `bool` holding `cur`. -/
def decodeBool {L : Type} (v : JSON L) (cur : Bool) : Except UnmarshalError Bool :=
  match v with
  | .null => .ok cur
  | .bool b => .ok b
  | w => .error (.UnmarshalTypeError w.kind "bool")

/-- Decodes a JSON value into a `uint64` holding `cur`. -/
def decodeUint {L : Type} (sc : Strconv L) (v : JSON L) (cur : uint64) :
    Except UnmarshalError uint64 :=
  match v with
  | .null => .ok cur
  | .num lit =>
    match sc.ParseUint lit with
    | some n => .ok n
    | none => .error (.UnmarshalTypeError "number" "uint64")
  | w => .error (.UnmarshalTypeError w.kind "uint64")

/-- Decodes a JSON value into an `int` holding `cur`. -/
def decodeInt {L : Type} (sc : Strconv L) (v : JSON L) (cur : int) : Except UnmarshalError int :=
  match v with
  | .null => .ok cur
  | .num lit =>
    match sc.ParseInt lit with
    | some i => .ok i
    | none => .error (.UnmarshalTypeError "number" "int")
  | w => .error (.UnmarshalTypeError w.kind "int")

/-- Decodes a JSON value into a `float64` holding `cur`. -/
def decodeFloat {L : Type} (sc : Strconv L) (v : JSON L) (cur : float64) :
    Except UnmarshalError float64 :=
  match v with
  | .null => .ok cur
  | .num lit =>
    match sc.ParseFloat lit with
    | some f => .ok f
    | none => .error (.UnmarshalTypeError "number" "float64")
  | w => .error (.UnmarshalTypeError w.kind "float64")

/-- Decodes a JSON value into a slice: `null` makes it nil, an array replaces it by
the decoded elements in order. -/
def decodeSlice {L α : Type} (dec : JSON L → Except UnmarshalError α) (goType : String)
    (v : JSON L) : Except UnmarshalError (List α) :=
  match v with
  | .null => .ok []
  | .arr elems => traverse dec elems
  | w => .error (.UnmarshalTypeError w.kind goType)

/-- The members of a JSON object decoded into a struct, in order: each key is
looked up among the field names, a key that names no field is skipped, and the
value of a key that does is decoded into that field (a later member for the same
field overwrites an earlier one). -/
def decodeMembers {L T : Type} (names : List String)
    (set : Nat → JSON L → T → Except UnmarshalError T) :
    List (String × JSON L) → T → Except UnmarshalError T
  | [], t => .ok t
  | (key, v) :: rest, t =>
    match findField names key with
    | none => decodeMembers names set rest t
    | some i =>
      match set i v t with
      | .error e => .error e
      | .ok t1 => decodeMembers names set rest t1

/-- Decodes a JSON value into a struct holding `cur`: `null` leaves it alone, an
object is decoded member by member, anything else is a type error. -/
def decodeStruct {L T : Type} (names : List String)
    (set : Nat → JSON L → T → Except UnmarshalError T) (goType : String) (v : JSON L) (cur : T) :
    Except UnmarshalError T :=
  match v with
  | .null => .ok cur
  | .obj members => decodeMembers names set members cur
  | w => .error (.UnmarshalTypeError w.kind goType)

/-- The zero value of `CellTower`. -/
def CellTower.zero : CellTower :=
  { CellID := "", LocationAreaCode := "", MobileCountryCode := "", MobileNetworkCode := "" }

/-- The `json` names of the fields of `CellTower`, in declaration order. -/
def CellTower.names : List String :=
  ["cellId", "locatonAreaCode", "mobileCountryCode", "mobileNetworkCode"]

/-- Decodes a JSON value into the field of `CellTower` with the given index. -/
def CellTower.setField {L : Type} (i : Nat) (v : JSON L) (t : CellTower) :
    Except UnmarshalError CellTower :=
  match i with
  | 0 => (decodeString v t.CellID).map (fun s => { t with CellID := s })
  | 1 => (decodeString v t.LocationAreaCode).map (fun s => { t with LocationAreaCode := s })
  | 2 => (decodeString v t.MobileCountryCode).map (fun s => { t with MobileCountryCode := s })
  | 3 => (decodeString v t.MobileNetworkCode).map (fun s => { t with MobileNetworkCode := s })
  | _ => .ok t

/-- `json.Unmarshal` into a fresh `CellTower`. -/
def CellTower.Unmarshal {L : Type} (v : JSON L) : Except UnmarshalError CellTower :=
  decodeStruct CellTower.names CellTower.setField "maps.CellTower" v CellTower.zero

/-- The zero value of `WiFiAccessPoint`. -/
def WiFiAccessPoint.zero : WiFiAccessPoint :=
  { MACAddress := "", SignalStrength := float64.zero, Age := 0, Channel := int.zero,
    SignalToNoiseRatio := float64.zero }

/-- The `json` names of the fields of `WiFiAccessPoint`, in declaration order. -/
def WiFiAccessPoint.names : List String :=
  ["macAddress", "signalStrength", "age", "channel", "signalToNoiseRatio"]

/-- Decodes a JSON value into the field of `WiFiAccessPoint` with the given index. -/
def WiFiAccessPoint.setField {L : Type} (sc : Strconv L) (i : Nat) (v : JSON L)
    (ap : WiFiAccessPoint) : Except UnmarshalError WiFiAccessPoint :=
  match i with
  | 0 => (decodeString v ap.MACAddress).map (fun s => { ap with MACAddress := s })
  | 1 => (decodeFloat sc v ap.SignalStrength).map (fun f => { ap with SignalStrength := f })
  | 2 => (decodeUint sc v ap.Age).map (fun n => { ap with Age := n })
  | 3 => (decodeInt sc v ap.Channel).map (fun c => { ap with Channel := c })
  | 4 => (decodeFloat sc v ap.SignalToNoiseRatio).map (fun f => { ap with SignalToNoiseRatio := f })
  | _ => .ok ap

/-- `json.Unmarshal` into a fresh `WiFiAccessPoint`. -/
def WiFiAccessPoint.Unmarshal {L : Type} (sc : Strconv L) (v : JSON L) :
    Except UnmarshalError WiFiAccessPoint :=
  decodeStruct WiFiAccessPoint.names (WiFiAccessPoint.setField sc) "maps.WiFiAccessPoint" v
    WiFiAccessPoint.zero

/-- The zero value of `GeolocationRequest`. -/
def GeolocationRequest.zero : GeolocationRequest :=
  { HomeMobileCountryCode := "", HomeMobileNetworkCode := "", RadioType := "", Carrier := "",
    ConsiderIP := false, CellTowers := [], WiFiAccessPoints := [] }

/-- The `json` names of the fields of `GeolocationRequest`, in declaration order. -/
def GeolocationRequest.names : List String :=
  ["homeMobileCountryCode", "homeMobileNetworkCode", "radioType", "carrier", "considerIp",
   "cellTowers", "wifiAccessPoints"]

/-- Decodes a JSON value into the field of `GeolocationRequest` with the given
index. -/
def GeolocationRequest.setField {L : Type} (sc : Strconv L) (i : Nat) (v : JSON L)
    (r : GeolocationRequest) : Except UnmarshalError GeolocationRequest :=
  match i with
  | 0 => (decodeString v r.HomeMobileCountryCode).map (fun s => { r with HomeMobileCountryCode := s })
  | 1 => (decodeString v r.HomeMobileNetworkCode).map (fun s => { r with HomeMobileNetworkCode := s })
  | 2 => (decodeString v r.RadioType).map (fun s => { r with RadioType := s })
  | 3 => (decodeString v r.Carrier).map (fun s => { r with Carrier := s })
  | 4 => (decodeBool v r.ConsiderIP).map (fun b => { r with ConsiderIP := b })
  | 5 => (decodeSlice CellTower.Unmarshal "[]maps.CellTower" v).map
      (fun ts => { r with CellTowers := ts })
  | 6 => (decodeSlice (WiFiAccessPoint.Unmarshal sc) "[]maps.WiFiAccessPoint" v).map
      (fun aps => { r with WiFiAccessPoints := aps })
  | _ => .ok r

/-- `json.Unmarshal` into a fresh `GeolocationRequest`. -/
def GeolocationRequest.Unmarshal {L : Type} (sc : Strconv L) (v : JSON L) :
    Except UnmarshalError GeolocationRequest :=
  decodeStruct GeolocationRequest.names (GeolocationRequest.setField sc)
    "maps.GeolocationRequest" v GeolocationRequest.zero

/-! ## Vocabulary of the statements -/

/-- Whether a JSON object has a member with the given key. -/
def hasKey {L : Type} (members : List (String × JSON L)) (key : String) : Bool :=
  members.any (fun m => m.1 == key)

/-- The members one field contributes to the object of its struct: none when the
field is skipped, else its key with its encoded value. -/
def fieldMembers {L : Type} (name : String) (skipped : Bool) (v : JSON L) :
    List (String × JSON L) :=
  if skipped then [] else [(name, v)]

/-- A float that JSON has a literal for: neither an infinity nor NaN. -/
def float64.Finite (f : float64) : Bool := !(f.IsInf || f.IsNaN)

/-- An access point whose two float fields are finite. -/
def WiFiAccessPoint.Finite (ap : WiFiAccessPoint) : Bool :=
  ap.SignalStrength.Finite && ap.SignalToNoiseRatio.Finite

/-- A request all of whose access points have finite float fields. -/
def GeolocationRequest.Finite (r : GeolocationRequest) : Bool :=
  r.WiFiAccessPoints.all WiFiAccessPoint.Finite

/-- A tower whose strings are valid UTF-8. -/
def CellTower.ValidUTF8 (t : CellTower) : Bool :=
  t.CellID.Valid && t.LocationAreaCode.Valid && t.MobileCountryCode.Valid &&
  t.MobileNetworkCode.Valid

/-- An access point whose string is valid UTF-8. -/
def WiFiAccessPoint.ValidUTF8 (ap : WiFiAccessPoint) : Bool := ap.MACAddress.Valid

/-- A request all of whose strings, those of its towers and access points
included, are valid UTF-8. -/
def GeolocationRequest.ValidUTF8 (r : GeolocationRequest) : Bool :=
  r.HomeMobileCountryCode.Valid && r.HomeMobileNetworkCode.Valid && r.RadioType.Valid &&
  r.Carrier.Valid && r.CellTowers.all CellTower.ValidUTF8 &&
  r.WiFiAccessPoints.all WiFiAccessPoint.ValidUTF8

/-- The float `-0`. -/
def float64.negZero : float64 := ⟨0x8000000000000000⟩

/-- A float after a trip through an `omitempty` field: a zero of either sign is
omitted and comes back as `+0`, any other value comes back as itself. -/
def float64.canon (f : float64) : float64 := if f.isZero then float64.zero else f

/-- An access point after a trip through JSON. -/
def WiFiAccessPoint.canon (ap : WiFiAccessPoint) : WiFiAccessPoint :=
  { ap with SignalStrength := ap.SignalStrength.canon
            SignalToNoiseRatio := ap.SignalToNoiseRatio.canon }

/-- A request after a trip through JSON. -/
def GeolocationRequest.canon (r : GeolocationRequest) : GeolocationRequest :=
  { r with WiFiAccessPoints := r.WiFiAccessPoints.map WiFiAccessPoint.canon }

/-- Field-wise equality of two access points: strings byte for byte, integers
exactly, floats with the Go `==`. -/
def WiFiAccessPoint.Equal (a b : WiFiAccessPoint) : Bool :=
  a.MACAddress == b.MACAddress && a.SignalStrength.eq b.SignalStrength && a.Age == b.Age &&
  a.Channel == b.Channel && a.SignalToNoiseRatio.eq b.SignalToNoiseRatio

/-- Element-wise equality of two slices: same length, equal elements at every
index. -/
def sliceEqual {α : Type} (eq : α → α → Bool) : List α → List α → Bool
  | [], [] => true
  | x :: xs, y :: ys => eq x y && sliceEqual eq xs ys
  | _, _ => false

/-- Field-wise equality of two requests: strings byte for byte, slices element by
element in order (same length, equal elements), floats with the Go `==`. -/
def GeolocationRequest.Equal (a b : GeolocationRequest) : Bool :=
  a.HomeMobileCountryCode == b.HomeMobileCountryCode &&
  a.HomeMobileNetworkCode == b.HomeMobileNetworkCode &&
  a.RadioType == b.RadioType && a.Carrier == b.Carrier && a.ConsiderIP == b.ConsiderIP &&
  sliceEqual (fun s t => decide (s = t)) a.CellTowers b.CellTowers &&
  sliceEqual WiFiAccessPoint.Equal a.WiFiAccessPoints b.WiFiAccessPoints

/-- The key that the `json` tag of the field of `CellTower` with index `i` declares
(0 `CellID`, 1 `LocationAreaCode`, 2 `MobileCountryCode`, 3 `MobileNetworkCode`). -/
def CellTower.key (i : Nat) : String := CellTower.names.getD i ""

/-- The omission rule on a `CellTower` and the object it is serialized to: the key
of each field is present exactly when the field is non-empty. -/
def CellTower.PresentIffNonZero {L : Type} (t : CellTower) (members : List (String × JSON L)) :
    Prop :=
  (hasKey members (CellTower.key 0) = true ↔ t.CellID ≠ "") ∧
  (hasKey members (CellTower.key 1) = true ↔ t.LocationAreaCode ≠ "") ∧
  (hasKey members (CellTower.key 2) = true ↔ t.MobileCountryCode ≠ "") ∧
  (hasKey members (CellTower.key 3) = true ↔ t.MobileNetworkCode ≠ "")

/-- The omission rule on a `WiFiAccessPoint` and the object it is serialized to:
each key is present exactly when its field is a non-empty string or a number that
is not zero. -/
def WiFiAccessPoint.PresentIffNonZero {L : Type} (ap : WiFiAccessPoint)
    (members : List (String × JSON L)) : Prop :=
  (hasKey members "macAddress" = true ↔ ap.MACAddress ≠ "") ∧
  (hasKey members "signalStrength" = true ↔ ap.SignalStrength.isZero = false) ∧
  (hasKey members "age" = true ↔ ap.Age ≠ 0) ∧
  (hasKey members "channel" = true ↔ ap.Channel.val ≠ 0) ∧
  (hasKey members "signalToNoiseRatio" = true ↔ ap.SignalToNoiseRatio.isZero = false)

/-! ## Sample values -/

/-- A number literal as `strconv` writes it. An integer literal is kept as the
integer that its decimal digits denote. A float literal, which `FormatFloat` with
precision -1 writes as the shortest decimal that `ParseFloat` reads back as the
same `float64`, is kept as that `float64`: its digits are not represented. -/
inductive NumLit where
  | integer (i : Int)
  | float (f : float64)
deriving DecidableEq

/-- The functions of `strconv` over `NumLit`. An integer literal is read as a
`uint64` or an `int` when the integer is in the range of the type, and is
rejected otherwise. A float literal is read as the `float64` it was written from.
A literal of one kind read at a type of the other kind is rejected (with the
digits not represented, what they would be read as is not either). -/
def valueStrconv : Strconv NumLit :=
  { FormatUint := fun n => .integer n.val
    ParseUint := fun l =>
      match l with
      | .integer i =>
        if h : 0 ≤ i ∧ i < 18446744073709551616 then some ⟨i.toNat, by omega⟩ else none
      | .float _ => none
    FormatInt := fun i => .integer i.val
    ParseInt := fun l =>
      match l with
      | .integer i =>
        if h : -9223372036854775808 ≤ i ∧ i ≤ 9223372036854775807 then some ⟨i, h⟩ else none
      | .float _ => none
    FormatFloat := .float
    ParseFloat := fun l =>
      match l with
      | .float f => some f
      | .integer _ => none }

/-- A transport that counts its calls and fails each one with the error `e`. -/
def failingClient (e : GoError String) : Client Unit Nat String :=
  { postJSON := fun _ _ _ resp w => ((some e, resp), w + 1) }

/-- A transport that counts its calls and answers each one with the decoded
response `resp`. -/
def answeringClient (resp : GeolocateResponse) : Client Unit Nat String :=
  { postJSON := fun _ _ _ _ w => ((none, resp), w + 1) }

/-- The result in the sample body of the spec: latitude 1.0, longitude 2.0 and
accuracy 10.5, as bit patterns. -/
def sampleResult : GeolocationResult :=
  { Location := { Lat := ⟨0x3FF0000000000000⟩, Lng := ⟨0x4000000000000000⟩ }
    Accuracy := ⟨0x4025000000000000⟩ }

/-- The decoded response of a successful call: a result and no error block. -/
def sampleSuccess : GeolocateResponse :=
  { GeolocationResult := sampleResult
    Error := { Errors := [], Code := int.zero, Message := "" } }

/-- The decoded response of a call the service rejected: code 400, one detailed
error, a message with percent signs in it, and location fields set as well. -/
def sampleFailure : GeolocateResponse :=
  { GeolocationResult := sampleResult
    Error := { Errors := [{ Domain := "geolocation", Reason := "parseError",
                            Message := "Parse Error" }]
               Code := ⟨400, by decide⟩
               Message := "100% invalid %s request" } }

/-- A decoded response whose error block has a message but neither a code nor
detailed errors. -/
def sampleNotice : GeolocateResponse :=
  { GeolocationResult := sampleResult
    Error := { Errors := [], Code := int.zero, Message := "invalid request" } }

/-- A tower with only its location area code set. -/
def sampleTowerLAC : CellTower :=
  { CellID := "", LocationAreaCode := "1234", MobileCountryCode := "", MobileNetworkCode := "" }

/-- A tower with every field set. -/
def sampleTower : CellTower :=
  { CellID := "42", LocationAreaCode := "415", MobileCountryCode := "310",
    MobileNetworkCode := "410" }

/-- An access point with a MAC address, a signal strength of -43 dBm
(bit pattern of -43.0) and a channel; age and signal-to-noise ratio are zero. -/
def sampleAccessPoint : WiFiAccessPoint :=
  { MACAddress := "00:25:9c:cf:1c:ac", SignalStrength := ⟨0xC045800000000000⟩, Age := 0,
    Channel := ⟨11, by decide⟩, SignalToNoiseRatio := float64.zero }

/-- An access point whose signal strength is NaN (the bit pattern of `math.NaN()`)
and whose age is 5. -/
def nanAccessPoint : WiFiAccessPoint :=
  { MACAddress := "00:25:9c:cf:1c:ac", SignalStrength := ⟨0x7FF8000000000001⟩, Age := 5,
    Channel := int.zero, SignalToNoiseRatio := float64.zero }

/-- A request with one tower and one access point. -/
def sampleRequest : GeolocationRequest :=
  { HomeMobileCountryCode := "310", HomeMobileNetworkCode := "", RadioType := RadioTypeGSM,
    Carrier := "Vodafone", ConsiderIP := true, CellTowers := [sampleTower],
    WiFiAccessPoints := [sampleAccessPoint] }

/-- A request with one tower and one access point, all floats finite, whose
Carrier is the single byte FF, which is not valid UTF-8. -/
def badCarrierRequest : GeolocationRequest :=
  { HomeMobileCountryCode := "310", HomeMobileNetworkCode := "", RadioType := RadioTypeGSM,
    Carrier := ⟨[byte.ofNat 0xFF]⟩, ConsiderIP := true, CellTowers := [sampleTower],
    WiFiAccessPoints := [sampleAccessPoint] }

/-- A request with one tower and one access point, the access point having a NaN
signal strength. -/
def nanRequest : GeolocationRequest :=
  { HomeMobileCountryCode := "310", HomeMobileNetworkCode := "", RadioType := RadioTypeGSM,
    Carrier := "Vodafone", ConsiderIP := true, CellTowers := [sampleTower],
    WiFiAccessPoints := [nanAccessPoint] }

/-! ## `Geolocate` -/

/-- Under the format `%s` the operand is written unchanged, whatever it contains. -/
theorem Sprintf_percent_s (a : String) : Sprintf "%s" [a] = a := by
  simp [Sprintf, doPrintf, printArg]

/-- The first return of `Geolocate`: the transport error, as it is. -/
theorem Geolocate_of_post_error {κ σ ε : Type} (c : Client κ σ ε) (ctx : κ)
    (r : Option GeolocationRequest) (w : σ) (e : GoError ε) (resp : GeolocateResponse) (w1 : σ)
    (hpost : c.postJSON ctx geolocationAPI r GeolocateResponse.zero w = ((some e, resp), w1)) :
    c.Geolocate ctx r w = ((none, some e), w1) := by
  simp [Client.Geolocate, hpost]

/-- The two returns of `Geolocate` after a transport call without error. -/
theorem Geolocate_of_post_ok {κ σ ε : Type} (c : Client κ σ ε) (ctx : κ)
    (r : Option GeolocationRequest) (w : σ) (resp : GeolocateResponse) (w1 : σ)
    (hpost : c.postJSON ctx geolocationAPI r GeolocateResponse.zero w = ((none, resp), w1)) :
    c.Geolocate ctx r w =
      if resp.Error.Code.val ≠ 0 ∨ resp.Error.Errors.length > 0 then
        ((none, some (.errorString resp.Error.Message)), w1)
      else ((some resp.GeolocationResult, none), w1) := by
  simp [Client.Geolocate, hpost, Errorf, Sprintf_percent_s]

/-- C1: when the transport call succeeds and the decoded error block has a non-zero
Code or a non-empty Errors sequence, Geolocate returns a nil result and a non-nil
error whose text is exactly the error block's top-level Message, whatever the
Errors sequence and the location and accuracy fields hold. -/
theorem Geolocate_service_error {κ σ ε : Type} (c : Client κ σ ε) (ctx : κ)
    (r : Option GeolocationRequest) (w : σ) (resp : GeolocateResponse) (w1 : σ)
    (hpost : c.postJSON ctx geolocationAPI r GeolocateResponse.zero w = ((none, resp), w1))
    (herr : resp.Error.Code.val ≠ 0 ∨ resp.Error.Errors ≠ []) :
    ∃ e : GoError ε, c.Geolocate ctx r w = ((none, some e), w1) ∧
      ∀ text : ε → String, e.Error text = resp.Error.Message := by
  refine ⟨.errorString resp.Error.Message, ?_, fun _ => rfl⟩
  rw [Geolocate_of_post_ok c ctx r w resp w1 hpost, if_pos]
  rcases herr with h | h
  · exact Or.inl h
  · exact Or.inr (List.length_pos.mpr h)

theorem Geolocate_service_error_witness :
    ((answeringClient sampleFailure).postJSON () geolocationAPI (some sampleRequest)
        GeolocateResponse.zero 0 = ((none, sampleFailure), 1)) ∧
    (sampleFailure.Error.Code.val ≠ 0 ∨ sampleFailure.Error.Errors ≠ []) ∧
    ∃ e : GoError String,
      (answeringClient sampleFailure).Geolocate () (some sampleRequest) 0 = ((none, some e), 1) ∧
      ∀ text : String → String, e.Error text = "100% invalid %s request" :=
  ⟨rfl, Or.inl (by decide),
    Geolocate_service_error (answeringClient sampleFailure) () (some sampleRequest) 0
      sampleFailure 1 rfl (Or.inl (by decide))⟩

/-- C2: when the transport call returns a non-nil error, Geolocate returns a nil
result and that same error, whatever the transport left in the response. -/
theorem Geolocate_transport_error {κ σ ε : Type} (c : Client κ σ ε) (ctx : κ)
    (r : Option GeolocationRequest) (w : σ) (e : GoError ε) (resp : GeolocateResponse) (w1 : σ)
    (hpost : c.postJSON ctx geolocationAPI r GeolocateResponse.zero w = ((some e, resp), w1)) :
    c.Geolocate ctx r w = ((none, some e), w1) :=
  Geolocate_of_post_error c ctx r w e resp w1 hpost

theorem Geolocate_transport_error_witness :
    ((failingClient (.other "dial tcp: connection refused")).postJSON () geolocationAPI
        (some sampleRequest) GeolocateResponse.zero 0
        = ((some (.other "dial tcp: connection refused"), GeolocateResponse.zero), 1)) ∧
    (failingClient (.other "dial tcp: connection refused")).Geolocate () (some sampleRequest) 0
        = ((none, some (.other "dial tcp: connection refused")), 1) :=
  ⟨rfl, Geolocate_transport_error (failingClient (.other "dial tcp: connection refused")) ()
    (some sampleRequest) 0 (.other "dial tcp: connection refused") GeolocateResponse.zero 1 rfl⟩

/-- C3: when the transport call succeeds and the decoded response has error Code 0
and an empty Errors sequence, Geolocate returns a nil error and a non-nil result
holding exactly the decoded location and accuracy. -/
theorem Geolocate_success {κ σ ε : Type} (c : Client κ σ ε) (ctx : κ)
    (r : Option GeolocationRequest) (w : σ) (resp : GeolocateResponse) (w1 : σ)
    (hpost : c.postJSON ctx geolocationAPI r GeolocateResponse.zero w = ((none, resp), w1))
    (hcode : resp.Error.Code.val = 0) (herrs : resp.Error.Errors = []) :
    c.Geolocate ctx r w =
      ((some { Location := resp.GeolocationResult.Location
               Accuracy := resp.GeolocationResult.Accuracy }, none), w1) := by
  rw [Geolocate_of_post_ok c ctx r w resp w1 hpost, if_neg]
  simp [hcode, herrs]

theorem Geolocate_success_witness :
    ((answeringClient sampleSuccess).postJSON () geolocationAPI (some sampleRequest)
        GeolocateResponse.zero 0 = ((none, sampleSuccess), 1)) ∧
    sampleSuccess.Error.Code.val = 0 ∧ sampleSuccess.Error.Errors = [] ∧
    (answeringClient sampleSuccess).Geolocate () (some sampleRequest) 0 =
      ((some { Location := { Lat := ⟨0x3FF0000000000000⟩, Lng := ⟨0x4000000000000000⟩ }
               Accuracy := ⟨0x4025000000000000⟩ }, none), 1) :=
  ⟨rfl, rfl, rfl,
    Geolocate_success (answeringClient sampleSuccess) () (some sampleRequest) 0 sampleSuccess 1
      rfl rfl rfl⟩

/-- C4: for every request and every behaviour of the transport, the result of
Geolocate is nil if and only if its error is non-nil. -/
theorem Geolocate_result_nil_iff_error {κ σ ε : Type} (c : Client κ σ ε) (ctx : κ)
    (r : Option GeolocationRequest) (w : σ) :
    (c.Geolocate ctx r w).1.1 = none ↔ (c.Geolocate ctx r w).1.2 ≠ none := by
  rcases h : c.postJSON ctx geolocationAPI r GeolocateResponse.zero w with ⟨⟨err, resp⟩, w1⟩
  cases err with
  | some e => simp [Geolocate_of_post_error c ctx r w e resp w1 h]
  | none =>
    rw [Geolocate_of_post_ok c ctx r w resp w1 h]
    split_ifs <;> simp

/-- C8: one invocation of Geolocate makes exactly one transport call, with the
fixed endpoint descriptor and with the request itself as the payload: run on a
client that journals its transport calls, Geolocate appends exactly one call to
the journal, and returns what the client without the journal returns. -/
theorem Geolocate_single_call {κ σ ε : Type} (c : Client κ σ ε) (ctx : κ)
    (r : Option GeolocationRequest) (w : σ) (log : List (PostCall κ)) :
    (c.recording.Geolocate ctx r (w, log)).2.2 =
        log ++ [{ ctx := ctx
                  config := { host := "https://www.googleapis.com"
                              path := "/geolocation/v1/geolocate"
                              acceptsClientID := true }
                  apiReq := r
                  resp := GeolocateResponse.zero }] ∧
      (c.recording.Geolocate ctx r (w, log)).1 = (c.Geolocate ctx r w).1 ∧
      (c.recording.Geolocate ctx r (w, log)).2.1 = (c.Geolocate ctx r w).2 := by
  rcases h : c.postJSON ctx geolocationAPI r GeolocateResponse.zero w with ⟨⟨err, resp⟩, w1⟩
  have h2 : c.recording.postJSON ctx geolocationAPI r GeolocateResponse.zero (w, log) =
      ((err, resp), (w1, log ++ [{ ctx := ctx, config := geolocationAPI, apiReq := r,
                                   resp := GeolocateResponse.zero }])) := by
    simp [Client.recording, h]
  cases err with
  | some e =>
    rw [Geolocate_of_post_error c ctx r w e resp w1 h,
      Geolocate_of_post_error c.recording ctx r (w, log) e resp _ h2]
    simp [geolocationAPI]
  | none =>
    rw [Geolocate_of_post_ok c ctx r w resp w1 h,
      Geolocate_of_post_ok c.recording ctx r (w, log) resp _ h2]
    split_ifs <;> simp [geolocationAPI]

/-- C10: when the transport call succeeds and the decoded error block has Code 0 and
an empty Errors sequence but a non-empty Message, Geolocate reports success: a
non-nil result, a nil error, and the message appears nowhere in what it returns. -/
theorem Geolocate_ignores_message {κ σ ε : Type} (c : Client κ σ ε) (ctx : κ)
    (r : Option GeolocationRequest) (w : σ) (resp : GeolocateResponse) (w1 : σ)
    (hpost : c.postJSON ctx geolocationAPI r GeolocateResponse.zero w = ((none, resp), w1))
    (hcode : resp.Error.Code.val = 0) (herrs : resp.Error.Errors = [])
    (_hmsg : resp.Error.Message ≠ "") :
    c.Geolocate ctx r w = ((some resp.GeolocationResult, none), w1) := by
  rw [Geolocate_of_post_ok c ctx r w resp w1 hpost, if_neg]
  simp [hcode, herrs]

theorem Geolocate_ignores_message_witness :
    ((answeringClient sampleNotice).postJSON () geolocationAPI (some sampleRequest)
        GeolocateResponse.zero 0 = ((none, sampleNotice), 1)) ∧
    sampleNotice.Error.Code.val = 0 ∧ sampleNotice.Error.Errors = [] ∧
    sampleNotice.Error.Message ≠ "" ∧
    (answeringClient sampleNotice).Geolocate () (some sampleRequest) 0 =
      ((some sampleResult, none), 1) :=
  ⟨rfl, rfl, rfl, by decide,
    Geolocate_ignores_message (answeringClient sampleNotice) () (some sampleRequest) 0
      sampleNotice 1 rfl rfl rfl (by decide)⟩

/-! ## UTF-8: encoding the decoded runes of a valid string gives the string back -/

/-- The code point of `Char.ofNat n` is `n` when `n` is a Unicode scalar value. -/
theorem Char_toNat_ofNat (n : Nat) (h : n < 0xD800 ∨ (0xDFFF < n ∧ n < 0x110000)) :
    (Char.ofNat n).toNat = n := by
  have hv : n.isValidChar := h
  unfold Char.ofNat
  rw [dif_pos hv]
  rfl

/-- An ASCII byte is the encoding of the rune it decodes to. -/
theorem EncodeRune_ascii (b0 : byte) (h : b0.val < 0x80) :
    utf8.EncodeRune (Char.ofNat b0.val) = [b0] := by
  have hn := Char_toNat_ofNat b0.val (Or.inl (by omega))
  unfold utf8.EncodeRune
  rw [hn, if_pos h]
  simp only [byte.ofNat, List.cons.injEq, and_true]
  apply Fin.ext
  simp only
  omega

/-- A well-formed two-byte encoding is the encoding of the rune it decodes to. -/
theorem EncodeRune_decode2 (b0 b1 : byte) (c : Char) (h : utf8.decode2 b0 b1 = some c) :
    utf8.EncodeRune c = [b0, b1] := by
  unfold utf8.decode2 at h
  split_ifs at h with hc
  simp only [utf8.continuation, Bool.and_eq_true, decide_eq_true_eq] at hc
  obtain ⟨⟨h1, h2⟩, h3, h4⟩ := hc
  cases h
  have hn := Char_toNat_ofNat (b0.val % 32 * 64 + b1.val % 64) (Or.inl (by omega))
  unfold utf8.EncodeRune
  rw [hn, if_neg (by omega), if_pos (by omega)]
  simp only [byte.ofNat, List.cons.injEq, and_true]
  constructor <;> apply Fin.ext <;> simp only <;> omega

/-- A well-formed three-byte encoding is the encoding of the rune it decodes to. -/
theorem EncodeRune_decode3 (b0 b1 b2 : byte) (c : Char) (h : utf8.decode3 b0 b1 b2 = some c) :
    utf8.EncodeRune c = [b0, b1, b2] := by
  unfold utf8.decode3 at h
  split_ifs at h with hc
  simp only [utf8.continuation, Bool.and_eq_true, Bool.or_eq_true, decide_eq_true_eq, bne_iff_ne,
    ne_eq] at hc
  cases h
  have hn := Char_toNat_ofNat (b0.val % 16 * 4096 + b1.val % 64 * 64 + b2.val % 64) (by omega)
  unfold utf8.EncodeRune
  rw [hn, if_neg (by omega), if_neg (by omega), if_pos (by omega)]
  simp only [byte.ofNat, List.cons.injEq, and_true]
  refine ⟨?_, ?_, ?_⟩ <;> apply Fin.ext <;> simp only <;> omega

/-- A well-formed four-byte encoding is the encoding of the rune it decodes to. -/
theorem EncodeRune_decode4 (b0 b1 b2 b3 : byte) (c : Char) (h : utf8.decode4 b0 b1 b2 b3 = some c) :
    utf8.EncodeRune c = [b0, b1, b2, b3] := by
  unfold utf8.decode4 at h
  split_ifs at h with hc
  simp only [utf8.continuation, Bool.and_eq_true, Bool.or_eq_true, decide_eq_true_eq, bne_iff_ne,
    ne_eq] at hc
  cases h
  have hn := Char_toNat_ofNat
    (b0.val % 8 * 262144 + b1.val % 64 * 4096 + b2.val % 64 * 64 + b3.val % 64) (by omega)
  unfold utf8.EncodeRune
  rw [hn, if_neg (by omega), if_neg (by omega), if_neg (by omega)]
  simp only [byte.ofNat, List.cons.injEq, and_true]
  refine ⟨?_, ?_, ?_, ?_⟩ <;> apply Fin.ext <;> simp only <;> omega

/-- When `DecodeRune` finds a rune of width `k`, the sequence starts with the
encoding of that rune and goes on with what is left after `k` bytes. -/
theorem DecodeRune_some (s : List byte) (c : Char) (k : Nat) (h : utf8.DecodeRune s = (some c, k)) :
    ∃ rest, s = utf8.EncodeRune c ++ rest ∧ s.drop k = rest ∧ rest.length < s.length := by
  match s, h with
  | [], h => simp [utf8.DecodeRune] at h
  | b0 :: rest, h =>
    simp only [utf8.DecodeRune] at h
    split_ifs at h with h0
    · cases h
      exact ⟨rest, by simp [EncodeRune_ascii b0 h0], rfl, by simp only [List.length_cons]; omega⟩
    · match rest, h with
      | [], h => simp at h
      | b1 :: rest1, h =>
        simp only at h
        cases h2 : utf8.decode2 b0 b1 with
        | some c2 =>
          rw [h2] at h
          cases h
          exact ⟨rest1, by simp [EncodeRune_decode2 b0 b1 c h2], rfl,
            by simp only [List.length_cons]; omega⟩
        | none =>
          rw [h2] at h
          match rest1, h with
          | [], h => simp at h
          | b2 :: rest2, h =>
            simp only at h
            cases h3 : utf8.decode3 b0 b1 b2 with
            | some c3 =>
              rw [h3] at h
              cases h
              exact ⟨rest2, by simp [EncodeRune_decode3 b0 b1 b2 c h3], rfl,
                by simp only [List.length_cons]; omega⟩
            | none =>
              rw [h3] at h
              match rest2, h with
              | [], h => simp at h
              | b3 :: rest3, h =>
                simp only at h
                cases h4 : utf8.decode4 b0 b1 b2 b3 with
                | some c4 =>
                  rw [h4] at h
                  cases h
                  exact ⟨rest3, by simp [EncodeRune_decode4 b0 b1 b2 b3 c h4], rfl,
                    by simp only [List.length_cons]; omega⟩
                | none =>
                  rw [h4] at h
                  simp at h

/-- On a sequence all of whose runes are well formed, encoding the decoded runes
gives the sequence back. -/
theorem ofText_decodeRunesAux (fuel : Nat) (s : List byte) (hlen : s.length ≤ fuel)
    (hv : (utf8.decodeRunesAux fuel s).all Option.isSome = true) :
    (((utf8.decodeRunesAux fuel s).map (fun r => r.getD utf8.RuneError)).map
      utf8.EncodeRune).flatten = s := by
  induction fuel generalizing s with
  | zero =>
    have : s = [] := List.length_eq_zero.mp (by omega)
    subst this
    rfl
  | succ fuel ih =>
    match s with
    | [] => rfl
    | b :: rest =>
      simp only [utf8.decodeRunesAux, List.all_cons, Bool.and_eq_true] at hv ⊢
      obtain ⟨hr, hall⟩ := hv
      cases hd : utf8.DecodeRune (b :: rest) with
      | mk r k =>
        rw [hd] at hr hall
        cases r with
        | none => simp at hr
        | some c =>
          obtain ⟨tail, hs, hdrop, hlt⟩ := DecodeRune_some (b :: rest) c k hd
          simp only at hall ⊢
          rw [hdrop] at hall ⊢
          have := ih tail (by simp at hlt hlen; omega) hall
          simp only [List.map_cons, List.flatten_cons, Option.getD_some, this]
          exact hs.symm

/-- Encoding the text of a valid UTF-8 string gives the string back. -/
theorem gostring_ofText_toText (s : gostring) (h : s.Valid = true) :
    gostring.ofText s.toText = s := by
  rcases s with ⟨bs⟩
  simp only [gostring.ofText, gostring.toText, gostring.mk.injEq]
  exact ofText_decodeRunesAux bs.length bs (Nat.le_refl _) h

/-- The empty text is the empty string. -/
theorem gostring_ofText_empty : gostring.ofText "" = ⟨[]⟩ := rfl

/-- A string has length 0 exactly when it is the empty string. -/
theorem gostring_len_beq_zero (s : gostring) :
    (s.bytes.length == 0) = decide (s = gostring.ofText "") := by
  rcases s with ⟨l⟩
  cases l <;> simp [gostring_ofText_empty]

/-- One step of the struct encoder on a field whose value encodes without error. -/
theorem structEncoder_cons_ok {L : Type} (f : FieldEnc L) (fs : List (FieldEnc L)) (v : JSON L)
    (hv : f.value = .ok v) :
    structEncoder (f :: fs) =
      match structEncoder fs with
      | .error e => .error e
      | .ok rest => .ok (fieldMembers f.name (f.omitEmpty && f.isEmptyValue) v ++ rest) := by
  unfold fieldMembers
  rw [structEncoder]
  split_ifs with h
  · cases structEncoder fs <;> simp
  · simp [hv]

/-- The object a tower is serialized to, field by field. -/
theorem CellTower_Marshal_eq {L : Type} (t : CellTower) :
    (t.Marshal : Except MarshalError (JSON L)) = .ok (.obj (
      fieldMembers "cellId" (t.CellID.bytes.length == 0) (.str t.CellID.toText) ++
      fieldMembers "locatonAreaCode" (t.LocationAreaCode.bytes.length == 0)
        (.str t.LocationAreaCode.toText) ++
      fieldMembers "mobileCountryCode" (t.MobileCountryCode.bytes.length == 0)
        (.str t.MobileCountryCode.toText) ++
      fieldMembers "mobileNetworkCode" (t.MobileNetworkCode.bytes.length == 0)
        (.str t.MobileNetworkCode.toText))) := by
  simp only [CellTower.Marshal, marshalStruct, CellTower.fields]
  rw [structEncoder_cons_ok _ _ (.str t.CellID.toText) rfl,
    structEncoder_cons_ok _ _ (.str t.LocationAreaCode.toText) rfl,
    structEncoder_cons_ok _ _ (.str t.MobileCountryCode.toText) rfl,
    structEncoder_cons_ok _ _ (.str t.MobileNetworkCode.toText) rfl]
  simp [structEncoder, FieldEnc.string]

/-- A finite float encodes as its literal. -/
theorem floatEncoder_finite {L : Type} (sc : Strconv L) (f : float64)
    (h : (f.IsInf || f.IsNaN) = false) : floatEncoder sc f = .ok (.num (sc.FormatFloat f)) := by
  simp [floatEncoder, h]

/-- The object an access point with finite floats is serialized to, field by field. -/
theorem WiFiAccessPoint_Marshal_eq {L : Type} (sc : Strconv L) (ap : WiFiAccessPoint)
    (hfin : ap.Finite = true) :
    ap.Marshal sc = .ok (.obj (
      fieldMembers "macAddress" (ap.MACAddress.bytes.length == 0)
        (.str ap.MACAddress.toText) ++
      fieldMembers "signalStrength" ap.SignalStrength.isZero
        (.num (sc.FormatFloat ap.SignalStrength)) ++
      fieldMembers "age" (ap.Age.val == 0) (.num (sc.FormatUint ap.Age)) ++
      fieldMembers "channel" (ap.Channel.val == 0) (.num (sc.FormatInt ap.Channel)) ++
      fieldMembers "signalToNoiseRatio" ap.SignalToNoiseRatio.isZero
        (.num (sc.FormatFloat ap.SignalToNoiseRatio)))) := by
  simp only [WiFiAccessPoint.Finite, float64.Finite, Bool.and_eq_true, Bool.not_eq_true'] at hfin
  simp only [WiFiAccessPoint.Marshal, marshalStruct, WiFiAccessPoint.fields]
  rw [structEncoder_cons_ok _ _ (.str ap.MACAddress.toText) rfl,
    structEncoder_cons_ok _ _ (.num (sc.FormatFloat ap.SignalStrength))
      (floatEncoder_finite sc _ hfin.1),
    structEncoder_cons_ok _ _ (.num (sc.FormatUint ap.Age)) rfl,
    structEncoder_cons_ok _ _ (.num (sc.FormatInt ap.Channel)) rfl,
    structEncoder_cons_ok _ _ (.num (sc.FormatFloat ap.SignalToNoiseRatio))
      (floatEncoder_finite sc _ hfin.2)]
  simp [structEncoder, FieldEnc.string, FieldEnc.float, FieldEnc.uint, FieldEnc.int]

/-- Decoding the members of an object is sequential in the list of members. -/
theorem decodeMembers_append {L T : Type} (names : List String)
    (set : Nat → JSON L → T → Except UnmarshalError T) (a b : List (String × JSON L)) (t : T) :
    decodeMembers names set (a ++ b) t =
      match decodeMembers names set a t with
      | .error e => .error e
      | .ok t1 => decodeMembers names set b t1 := by
  induction a generalizing t with
  | nil => simp [decodeMembers]
  | cons m a ih =>
    rcases m with ⟨key, v⟩
    simp only [List.cons_append, decodeMembers]
    cases hf : findField names key with
    | none => simpa using ih t
    | some i =>
      cases hs : set i v t with
      | error e => simp [hs]
      | ok t1 => simpa [hs] using ih t1

/-- Decoding a list of members that starts with a segment decoded without error. -/
theorem decodeMembers_append_ok {L T : Type} (names : List String)
    (set : Nat → JSON L → T → Except UnmarshalError T) (a b : List (String × JSON L)) (t t1 : T)
    (h : decodeMembers names set a t = .ok t1) :
    decodeMembers names set (a ++ b) t = decodeMembers names set b t1 := by
  rw [decodeMembers_append, h]

/-- A tower with valid UTF-8 strings is serialized, and its serialization is decoded
to the same tower. -/
theorem CellTower_roundtrip {L : Type} (t : CellTower) (hutf : t.ValidUTF8 = true) :
    ∃ j : JSON L, t.Marshal = .ok j ∧ CellTower.Unmarshal j = .ok t := by
  refine ⟨_, CellTower_Marshal_eq t, ?_⟩
  simp only [CellTower.ValidUTF8, Bool.and_eq_true] at hutf
  obtain ⟨⟨⟨ha, hb⟩, hc⟩, hdv⟩ := hutf
  simp only [CellTower.Unmarshal, decodeStruct, gostring_len_beq_zero]
  have h0 : findField CellTower.names "cellId" = some 0 := by decide
  have h1 : findField CellTower.names "locatonAreaCode" = some 1 := by decide
  have h2 : findField CellTower.names "mobileCountryCode" = some 2 := by decide
  have h3 : findField CellTower.names "mobileNetworkCode" = some 3 := by decide
  rcases t with ⟨a, b, c, d⟩
  rw [decodeMembers_append_ok _ _ _ _ _ (⟨a, b, c, ""⟩ : CellTower)]
  · by_cases hd : d = "" <;>
      simp [fieldMembers, decodeMembers, hd, h3, CellTower.setField, decodeString, Except.map,
        CellTower.zero, gostring_ofText_toText _ hdv]
  rw [decodeMembers_append_ok _ _ _ _ _ (⟨a, b, "", ""⟩ : CellTower)]
  · by_cases hd : c = "" <;>
      simp [fieldMembers, decodeMembers, hd, h2, CellTower.setField, decodeString, Except.map,
        CellTower.zero, gostring_ofText_toText _ hc]
  rw [decodeMembers_append_ok _ _ _ _ _ (⟨a, "", "", ""⟩ : CellTower)]
  · by_cases hd : b = "" <;>
      simp [fieldMembers, decodeMembers, hd, h1, CellTower.setField, decodeString, Except.map,
        CellTower.zero, gostring_ofText_toText _ hb]
  · by_cases hd : a = "" <;>
      simp [fieldMembers, decodeMembers, hd, h0, CellTower.setField, decodeString, Except.map,
        CellTower.zero, gostring_ofText_toText _ ha]

/-! ## Floats and the access point round trip -/

/-- The floats that compare equal to 0 are `+0` and `-0`. -/
theorem float64_isZero_cases (f : float64) (h : f.isZero = true) :
    f = float64.zero ∨ f = float64.negZero := by
  rcases f with ⟨⟨b, hb⟩⟩
  simp only [float64.isZero, float64.exponent, float64.mantissa, Bool.and_eq_true, beq_iff_eq] at h
  simp only [float64.zero, float64.negZero, float64.mk.injEq, Fin.ext_iff]
  change b = 0 ∨ b = 9223372036854775808
  omega

/-- A finite float and what comes back for it are equal under `==`. -/
theorem float64_canon_eq (f : float64) (h : f.Finite = true) : f.canon.eq f = true := by
  simp only [float64.Finite, Bool.not_eq_true', Bool.or_eq_false_iff] at h
  unfold float64.canon
  split_ifs with hz
  · have h0 : float64.zero.IsNaN = false := by decide
    have h1 : float64.zero.isZero = true := by decide
    simp [float64.eq, h.2, hz, h0, h1]
  · simp [float64.eq, h.2]

/-- A float that comes back as a zero is `+0`. -/
theorem float64_canon_zero (f : float64) (h : f.canon.isZero = true) :
    f.canon = float64.zero := by
  unfold float64.canon at h ⊢
  split_ifs at h ⊢ with hz
  · rfl
  · exact absurd h hz

/-- Every float but `-0` comes back as itself. -/
theorem float64_canon_of_ne_negZero (f : float64) (h : f ≠ float64.negZero) : f.canon = f := by
  unfold float64.canon
  split_ifs with hz
  · rcases float64_isZero_cases f hz with h0 | h0
    · exact h0.symm
    · exact absurd h0 h
  · rfl

/-- An access point with finite floats is serialized, and its serialization is
decoded to the access point with its zero floats made `+0`. -/
theorem WiFiAccessPoint_Unmarshal_Marshal {L : Type} (sc : Strconv L) (hsc : sc.RoundTrips)
    (ap : WiFiAccessPoint) (hfin : ap.Finite = true) (hutf : ap.ValidUTF8 = true) :
    ∃ j : JSON L, ap.Marshal sc = .ok j ∧ WiFiAccessPoint.Unmarshal sc j = .ok ap.canon := by
  refine ⟨_, WiFiAccessPoint_Marshal_eq sc ap hfin, ?_⟩
  simp only [WiFiAccessPoint.Finite, float64.Finite, Bool.and_eq_true, Bool.not_eq_true',
    Bool.or_eq_false_iff] at hfin
  simp only [WiFiAccessPoint.Unmarshal, decodeStruct, gostring_len_beq_zero]
  have h0 : findField WiFiAccessPoint.names "macAddress" = some 0 := by decide
  have h1 : findField WiFiAccessPoint.names "signalStrength" = some 1 := by decide
  have h2 : findField WiFiAccessPoint.names "age" = some 2 := by decide
  have h3 : findField WiFiAccessPoint.names "channel" = some 3 := by decide
  have h4 : findField WiFiAccessPoint.names "signalToNoiseRatio" = some 4 := by decide
  rcases ap with ⟨mac, ss, age, ch, snr⟩
  simp only [WiFiAccessPoint.ValidUTF8] at hfin hutf
  rw [decodeMembers_append_ok _ _ _ _ _
    { WiFiAccessPoint.zero with MACAddress := mac, SignalStrength := ss.canon, Age := age,
                                Channel := ch }]
  · by_cases hd : snr.isZero = true
    · simp [fieldMembers, decodeMembers, hd, WiFiAccessPoint.zero, WiFiAccessPoint.canon,
        float64.canon]
    · simp [fieldMembers, decodeMembers, hd, h4, WiFiAccessPoint.setField, decodeFloat,
        Except.map, WiFiAccessPoint.zero, WiFiAccessPoint.canon, float64.canon,
        hsc.float snr hfin.2.1 hfin.2.2]
  rw [decodeMembers_append_ok _ _ _ _ _
    { WiFiAccessPoint.zero with MACAddress := mac, SignalStrength := ss.canon, Age := age }]
  · by_cases hd : ch.val = 0
    · have hch : ch = int.zero := Subtype.ext hd
      simp [fieldMembers, decodeMembers, hd, WiFiAccessPoint.zero, hch]
    · simp [fieldMembers, decodeMembers, hd, h3, WiFiAccessPoint.setField, decodeInt,
        Except.map, WiFiAccessPoint.zero, hsc.int ch]
  rw [decodeMembers_append_ok _ _ _ _ _
    { WiFiAccessPoint.zero with MACAddress := mac, SignalStrength := ss.canon }]
  · by_cases hd : age.val = 0
    · have hage : age = 0 := Fin.ext hd
      simp [fieldMembers, decodeMembers, WiFiAccessPoint.zero, hage]
    · simp [fieldMembers, decodeMembers, hd, h2, WiFiAccessPoint.setField, decodeUint,
        Except.map, WiFiAccessPoint.zero, hsc.uint age]
  rw [decodeMembers_append_ok _ _ _ _ _ { WiFiAccessPoint.zero with MACAddress := mac }]
  · by_cases hd : ss.isZero = true
    · simp [fieldMembers, decodeMembers, hd, WiFiAccessPoint.zero, float64.canon]
    · simp [fieldMembers, decodeMembers, hd, h1, WiFiAccessPoint.setField, decodeFloat,
        Except.map, WiFiAccessPoint.zero, float64.canon, hsc.float ss hfin.1.1 hfin.1.2]
  · by_cases hd : mac = "" <;>
      simp [fieldMembers, decodeMembers, hd, h0, WiFiAccessPoint.setField, decodeString,
        Except.map, WiFiAccessPoint.zero, gostring_ofText_toText _ hutf]

/-- An element-wise round trip lifts to lists, in order. -/
theorem traverse_roundtrip {E F α β J : Type} (enc : α → Except E J) (dec : J → Except F β)
    (g : α → β) (xs : List α) (h : ∀ x ∈ xs, ∃ j, enc x = .ok j ∧ dec j = .ok (g x)) :
    ∃ js, traverse enc xs = .ok js ∧ traverse dec js = .ok (xs.map g) ∧ js.length = xs.length := by
  induction xs with
  | nil => exact ⟨[], rfl, rfl, rfl⟩
  | cons x xs ih =>
    obtain ⟨j, hj, hd⟩ := h x (List.mem_cons_self x xs)
    obtain ⟨js, hjs, hds, hl⟩ := ih (fun y hy => h y (List.mem_cons_of_mem x hy))
    exact ⟨j :: js, by simp [traverse, hj, hjs], by simp [traverse, hd, hds], by simp [hl]⟩

/-! ## The request round trip -/

/-- A slice whose elements encode without error encodes as the array of them. -/
theorem sliceEncoder_ok {L α : Type} (enc : α → Except MarshalError (JSON L)) (xs : List α)
    (js : List (JSON L)) (h : traverse enc xs = .ok js) : sliceEncoder enc xs = .ok (.arr js) := by
  simp [sliceEncoder, h]

/-- The object a request is serialized to, field by field, given the encodings of
its towers and access points. -/
theorem GeolocationRequest_Marshal_eq {L : Type} (sc : Strconv L) (r : GeolocationRequest)
    (ts as : List (JSON L)) (hts : traverse CellTower.Marshal r.CellTowers = .ok ts)
    (has : traverse (WiFiAccessPoint.Marshal sc) r.WiFiAccessPoints = .ok as) :
    r.Marshal sc = .ok (.obj (
      fieldMembers "homeMobileCountryCode" (r.HomeMobileCountryCode.bytes.length == 0)
        (.str r.HomeMobileCountryCode.toText) ++
      fieldMembers "homeMobileNetworkCode" (r.HomeMobileNetworkCode.bytes.length == 0)
        (.str r.HomeMobileNetworkCode.toText) ++
      fieldMembers "radioType" (r.RadioType.bytes.length == 0) (.str r.RadioType.toText) ++
      fieldMembers "carrier" (r.Carrier.bytes.length == 0) (.str r.Carrier.toText) ++
      fieldMembers "considerIp" false (.bool r.ConsiderIP) ++
      fieldMembers "cellTowers" (r.CellTowers.length == 0) (.arr ts) ++
      fieldMembers "wifiAccessPoints" (r.WiFiAccessPoints.length == 0) (.arr as))) := by
  simp only [GeolocationRequest.Marshal, marshalStruct, GeolocationRequest.fields]
  rw [structEncoder_cons_ok _ _ (.str r.HomeMobileCountryCode.toText) rfl,
    structEncoder_cons_ok _ _ (.str r.HomeMobileNetworkCode.toText) rfl,
    structEncoder_cons_ok _ _ (.str r.RadioType.toText) rfl,
    structEncoder_cons_ok _ _ (.str r.Carrier.toText) rfl,
    structEncoder_cons_ok _ _ (.bool r.ConsiderIP) rfl,
    structEncoder_cons_ok _ _ (.arr ts) (sliceEncoder_ok _ _ _ hts),
    structEncoder_cons_ok _ _ (.arr as) (sliceEncoder_ok _ _ _ has)]
  simp [structEncoder, FieldEnc.string, FieldEnc.bool, FieldEnc.slice]

/-- A request with finite floats is serialized, and its serialization is decoded to
the request with the zero floats of its access points made `+0`. -/
theorem GeolocationRequest_Unmarshal_Marshal {L : Type} (sc : Strconv L) (hsc : sc.RoundTrips)
    (r : GeolocationRequest) (hfin : r.Finite = true) (hutf : r.ValidUTF8 = true) :
    ∃ j : JSON L, r.Marshal sc = .ok j ∧ GeolocationRequest.Unmarshal sc j = .ok r.canon := by
  simp only [GeolocationRequest.ValidUTF8, Bool.and_eq_true, List.all_eq_true] at hutf
  obtain ⟨⟨⟨⟨⟨hmcc, hmnc⟩, hradio⟩, hcarrier⟩, htowers⟩, haps⟩ := hutf
  obtain ⟨ts, hts, hdts, hlt⟩ := traverse_roundtrip
    (CellTower.Marshal : CellTower → Except MarshalError (JSON L))
    CellTower.Unmarshal id r.CellTowers (fun t ht => CellTower_roundtrip t (htowers t ht))
  obtain ⟨as, has, hdas, hla⟩ := traverse_roundtrip (WiFiAccessPoint.Marshal sc)
    (WiFiAccessPoint.Unmarshal sc) WiFiAccessPoint.canon r.WiFiAccessPoints
    (fun ap hap => WiFiAccessPoint_Unmarshal_Marshal sc hsc ap
      (by simp only [GeolocationRequest.Finite, List.all_eq_true] at hfin; exact hfin ap hap)
      (haps ap hap))
  rw [List.map_id] at hdts
  refine ⟨_, GeolocationRequest_Marshal_eq sc r ts as hts has, ?_⟩
  simp only [GeolocationRequest.Unmarshal, decodeStruct, gostring_len_beq_zero]
  have h0 : findField GeolocationRequest.names "homeMobileCountryCode" = some 0 := by decide
  have h1 : findField GeolocationRequest.names "homeMobileNetworkCode" = some 1 := by decide
  have h2 : findField GeolocationRequest.names "radioType" = some 2 := by decide
  have h3 : findField GeolocationRequest.names "carrier" = some 3 := by decide
  have h4 : findField GeolocationRequest.names "considerIp" = some 4 := by decide
  have h5 : findField GeolocationRequest.names "cellTowers" = some 5 := by decide
  have h6 : findField GeolocationRequest.names "wifiAccessPoints" = some 6 := by decide
  rcases r with ⟨mcc, mnc, radio, carrier, ip, towers, aps⟩
  simp only at hts has hdts hdas hlt hla hmcc hmnc hradio hcarrier
  rw [decodeMembers_append_ok _ _ _ _ _
    (⟨mcc, mnc, radio, carrier, ip, towers, []⟩ : GeolocationRequest)]
  · cases aps with
    | nil => simp [fieldMembers, decodeMembers, GeolocationRequest.zero, GeolocationRequest.canon]
    | cons a aps =>
      simp [fieldMembers, decodeMembers, h6, GeolocationRequest.setField, decodeSlice, hdas,
        Except.map, GeolocationRequest.zero, GeolocationRequest.canon]
  rw [decodeMembers_append_ok _ _ _ _ _
    (⟨mcc, mnc, radio, carrier, ip, [], []⟩ : GeolocationRequest)]
  · cases towers with
    | nil => simp [fieldMembers, decodeMembers, GeolocationRequest.zero]
    | cons a towers =>
      simp [fieldMembers, decodeMembers, h5, GeolocationRequest.setField, decodeSlice, hdts,
        Except.map, GeolocationRequest.zero]
  rw [decodeMembers_append_ok _ _ _ _ _
    (⟨mcc, mnc, radio, carrier, false, [], []⟩ : GeolocationRequest)]
  · simp [fieldMembers, decodeMembers, h4, GeolocationRequest.setField, decodeBool,
      Except.map, GeolocationRequest.zero]
  rw [decodeMembers_append_ok _ _ _ _ _
    (⟨mcc, mnc, radio, "", false, [], []⟩ : GeolocationRequest)]
  · by_cases hd : carrier = "" <;>
      simp [fieldMembers, decodeMembers, hd, h3, GeolocationRequest.setField, decodeString,
        Except.map, GeolocationRequest.zero, gostring_ofText_toText _ hcarrier]
  rw [decodeMembers_append_ok _ _ _ _ _
    (⟨mcc, mnc, "", "", false, [], []⟩ : GeolocationRequest)]
  · by_cases hd : radio = "" <;>
      simp [fieldMembers, decodeMembers, hd, h2, GeolocationRequest.setField, decodeString,
        Except.map, GeolocationRequest.zero, gostring_ofText_toText _ hradio]
  rw [decodeMembers_append_ok _ _ _ _ _
    (⟨mcc, "", "", "", false, [], []⟩ : GeolocationRequest)]
  · by_cases hd : mnc = "" <;>
      simp [fieldMembers, decodeMembers, hd, h1, GeolocationRequest.setField, decodeString,
        Except.map, GeolocationRequest.zero, gostring_ofText_toText _ hmnc]
  · by_cases hd : mcc = "" <;>
      simp [fieldMembers, decodeMembers, hd, h0, GeolocationRequest.setField, decodeString,
        Except.map, GeolocationRequest.zero, gostring_ofText_toText _ hmcc]

theorem sliceEqual_refl {α : Type} (eq : α → α → Bool) (xs : List α)
    (h : ∀ x ∈ xs, eq x x = true) : sliceEqual eq xs xs = true := by
  induction xs with
  | nil => rfl
  | cons x xs ih =>
    simp only [sliceEqual, Bool.and_eq_true]
    exact ⟨h x (List.mem_cons_self x xs), ih (fun y hy => h y (List.mem_cons_of_mem x hy))⟩

theorem sliceEqual_map {α : Type} (eq : α → α → Bool) (g : α → α) (xs : List α)
    (h : ∀ x ∈ xs, eq (g x) x = true) : sliceEqual eq (xs.map g) xs = true := by
  induction xs with
  | nil => rfl
  | cons x xs ih =>
    simp only [List.map_cons, sliceEqual, Bool.and_eq_true]
    exact ⟨h x (List.mem_cons_self x xs), ih (fun y hy => h y (List.mem_cons_of_mem x hy))⟩

theorem WiFiAccessPoint_canon_Equal (ap : WiFiAccessPoint) (h : ap.Finite = true) :
    ap.canon.Equal ap = true := by
  simp only [WiFiAccessPoint.Finite, Bool.and_eq_true] at h
  simp [WiFiAccessPoint.Equal, WiFiAccessPoint.canon, float64_canon_eq _ h.1,
    float64_canon_eq _ h.2]

theorem GeolocationRequest_canon_Equal (r : GeolocationRequest) (h : r.Finite = true) :
    r.canon.Equal r = true := by
  simp only [GeolocationRequest.Finite, List.all_eq_true] at h
  simp only [GeolocationRequest.Equal, GeolocationRequest.canon, beq_self_eq_true, Bool.true_and,
    Bool.and_eq_true]
  exact ⟨sliceEqual_refl _ _ (fun _ _ => by simp),
    sliceEqual_map _ _ _ (fun ap hap => WiFiAccessPoint_canon_Equal ap (h ap hap))⟩

/-! ## The serialization claims -/

/-- The functions of `strconv` over `NumLit` read back what they wrote. -/
theorem valueStrconv_RoundTrips : valueStrconv.RoundTrips := by
  refine ⟨fun n => ?_, fun i => ?_, fun _ _ _ => rfl⟩
  · have h : (0 : Int) ≤ (n.val : Int) ∧ (n.val : Int) < 18446744073709551616 :=
      ⟨Int.ofNat_nonneg _, by have := n.isLt; omega⟩
    simp only [valueStrconv, dif_pos h, Option.some.injEq]
    exact Fin.ext (Int.toNat_ofNat n.val)
  · simp only [valueStrconv, dif_pos i.property]

/-- Serializing the access point with a NaN signal strength fails. -/
theorem nanAccessPoint_Marshal {L : Type} (sc : Strconv L) :
    nanAccessPoint.Marshal sc = .error (.UnsupportedValueError ⟨0x7FF8000000000001⟩) := by
  rfl

/-- Serializing the request with that access point fails. -/
theorem nanRequest_Marshal {L : Type} (sc : Strconv L) :
    nanRequest.Marshal sc = .error (.UnsupportedValueError ⟨0x7FF8000000000001⟩) := by
  rfl

/-- The serialization of the sample request. -/
theorem sampleRequest_Marshal :
    sampleRequest.Marshal valueStrconv = .ok (.obj
      [("homeMobileCountryCode", .str "310"), ("radioType", .str "gsm"),
       ("carrier", .str "Vodafone"), ("considerIp", .bool true),
       ("cellTowers", .arr [.obj [("cellId", .str "42"), ("locatonAreaCode", .str "415"),
          ("mobileCountryCode", .str "310"), ("mobileNetworkCode", .str "410")]]),
       ("wifiAccessPoints", .arr [.obj [("macAddress", .str "00:25:9c:cf:1c:ac"),
          ("signalStrength", .num (.float ⟨0xC045800000000000⟩)),
          ("channel", .num (.integer 11))]])]) := by
  rfl

/-- C5: the request whose optional fields are all empty, with either value of
ConsiderIP, is serialized to the object with the single key considerIp carrying
the flag. -/
theorem Marshal_empty_request {L : Type} (sc : Strconv L) (b : Bool) :
    GeolocationRequest.Marshal sc
        { HomeMobileCountryCode := "", HomeMobileNetworkCode := "", RadioType := "",
          Carrier := "", ConsiderIP := b, CellTowers := [], WiFiAccessPoints := [] } =
      .ok (.obj [("considerIp", .bool b)]) := by
  rfl

/-- C6, refuted as stated, at two requests with one tower and one access point each.
The one whose access point has a NaN signal strength has no serialization at all,
whatever `strconv` does. The one whose Carrier is the byte FF, which is not valid
UTF-8, has finite floats, is serialized, and is deserialized to a request whose
Carrier is the three bytes EF BF BD of U+FFFD: not equal to the original. -/
theorem roundtrip_fails_on_NaN_and_on_invalid_UTF8 :
    (nanRequest.CellTowers.length = 1 ∧ nanRequest.WiFiAccessPoints.length = 1 ∧
      ¬ ∃ (L : Type) (sc : Strconv L) (j : JSON L), nanRequest.Marshal sc = .ok j) ∧
    (badCarrierRequest.CellTowers.length = 1 ∧ badCarrierRequest.WiFiAccessPoints.length = 1 ∧
      badCarrierRequest.Finite = true ∧
      ∃ (j : JSON NumLit) (r1 : GeolocationRequest),
        badCarrierRequest.Marshal valueStrconv = .ok j ∧
        GeolocationRequest.Unmarshal valueStrconv j = .ok r1 ∧
        r1.Carrier = ⟨[byte.ofNat 0xEF, byte.ofNat 0xBF, byte.ofNat 0xBD]⟩ ∧
        r1.Equal badCarrierRequest = false) := by
  refine ⟨⟨rfl, rfl, ?_⟩, rfl, rfl, by decide, _, _, rfl, rfl, by decide, by decide⟩
  rintro ⟨L, sc, j, h⟩
  rw [nanRequest_Marshal] at h
  cases h

/-- C6, amended: a request whose access points have finite float fields and whose
strings are all valid UTF-8 is serialized, and the serialization is deserialized to
a request equal to the original in every field: strings byte for byte, the flag
and the integers exactly, floats under `==`, towers and access points element by
element in the same order. A float that was omitted because it is zero comes back
as the zero value `+0`. -/
theorem GeolocationRequest_roundtrip (r : GeolocationRequest) (hfin : r.Finite = true)
    (hutf : r.ValidUTF8 = true) :
    ∃ (j : JSON NumLit) (r1 : GeolocationRequest),
      r.Marshal valueStrconv = .ok j ∧ GeolocationRequest.Unmarshal valueStrconv j = .ok r1 ∧
      r1.Equal r = true ∧
      ∀ ap ∈ r1.WiFiAccessPoints,
        (ap.SignalStrength.isZero = true → ap.SignalStrength = float64.zero) ∧
        (ap.SignalToNoiseRatio.isZero = true → ap.SignalToNoiseRatio = float64.zero) := by
  obtain ⟨j, hj, hd⟩ :=
    GeolocationRequest_Unmarshal_Marshal valueStrconv valueStrconv_RoundTrips r hfin hutf
  refine ⟨j, r.canon, hj, hd, GeolocationRequest_canon_Equal r hfin, ?_⟩
  intro ap hap
  simp only [GeolocationRequest.canon, List.mem_map] at hap
  obtain ⟨ap0, _, rfl⟩ := hap
  exact ⟨float64_canon_zero _, float64_canon_zero _⟩

theorem GeolocationRequest_roundtrip_witness :
    sampleRequest.Finite = true ∧ sampleRequest.ValidUTF8 = true ∧
    ∃ (j : JSON NumLit) (r1 : GeolocationRequest),
      sampleRequest.Marshal valueStrconv = .ok j ∧
      GeolocationRequest.Unmarshal valueStrconv j = .ok r1 ∧
      r1.Equal sampleRequest = true ∧
      ∀ ap ∈ r1.WiFiAccessPoints,
        (ap.SignalStrength.isZero = true → ap.SignalStrength = float64.zero) ∧
        (ap.SignalToNoiseRatio.isZero = true → ap.SignalToNoiseRatio = float64.zero) :=
  ⟨by decide, by decide, GeolocationRequest_roundtrip sampleRequest (by decide) (by decide)⟩

/-- A key is in a concatenation when it is in one of the two parts. -/
theorem hasKey_append {L : Type} (a b : List (String × JSON L)) (key : String) :
    hasKey (a ++ b) key = (hasKey a key || hasKey b key) := by
  simp [hasKey, List.any_append]

/-- A field contributes its key exactly when it is not skipped. -/
theorem hasKey_fieldMembers {L : Type} (name : String) (skipped : Bool) (v : JSON L)
    (key : String) : hasKey (fieldMembers name skipped v) key = (!skipped && name == key) := by
  cases skipped <;> simp [hasKey, fieldMembers]

/-- C7, on the code: every tower is serialized to an object that has no key
locationAreaCode; the tower with only LocationAreaCode set, to 1234, is serialized
to the object whose single member has the key locatonAreaCode. -/
theorem CellTower_LocationAreaCode_key {L : Type} :
    (∀ t : CellTower, ∃ members : List (String × JSON L),
      t.Marshal = .ok (.obj members) ∧ hasKey members "locationAreaCode" = false) ∧
    (sampleTowerLAC.Marshal : Except MarshalError (JSON L)) =
      .ok (.obj [("locatonAreaCode", .str "1234")]) := by
  refine ⟨fun t => ⟨_, CellTower_Marshal_eq t, ?_⟩, rfl⟩
  simp [hasKey_append, hasKey_fieldMembers]

/-- C9, refuted as stated: the access point with a NaN signal strength and age 5
has non-zero fields and no serialized object, whatever `strconv` does. -/
theorem omitempty_fails_on_NaN :
    nanAccessPoint.Age ≠ 0 ∧ nanAccessPoint.SignalStrength.isZero = false ∧
    ¬ ∃ (L : Type) (sc : Strconv L) (j : JSON L), nanAccessPoint.Marshal sc = .ok j := by
  refine ⟨by decide, by decide, ?_⟩
  rintro ⟨L, sc, j, h⟩
  rw [nanAccessPoint_Marshal] at h
  cases h

/-- C9, amended: every cell tower, and every access point whose SignalStrength and
SignalToNoiseRatio are finite, is serialized to an object in which a key is
present if and only if its field is non-zero (a non-empty string, a number that is
not zero); with all fields zero the object is empty. -/
theorem omitempty_present_iff_nonzero {L : Type} (sc : Strconv L) (t : CellTower)
    (ap : WiFiAccessPoint) (hfin : ap.Finite = true) :
    (∃ members : List (String × JSON L), t.Marshal = .ok (.obj members) ∧
      t.PresentIffNonZero members ∧ (t = CellTower.zero → members = [])) ∧
    (∃ members : List (String × JSON L), ap.Marshal sc = .ok (.obj members) ∧
      ap.PresentIffNonZero members ∧
      (ap.MACAddress = "" → ap.SignalStrength.isZero = true → ap.Age = 0 → ap.Channel.val = 0 →
        ap.SignalToNoiseRatio.isZero = true → members = [])) := by
  constructor
  · refine ⟨_, CellTower_Marshal_eq t, ?_, ?_⟩
    · simp [CellTower.PresentIffNonZero, CellTower.key, CellTower.names, hasKey_append,
        hasKey_fieldMembers, gostring_len_beq_zero]
    · rintro rfl
      rfl
  · refine ⟨_, WiFiAccessPoint_Marshal_eq sc ap hfin, ?_, ?_⟩
    · simp [WiFiAccessPoint.PresentIffNonZero, hasKey_append, hasKey_fieldMembers,
        gostring_len_beq_zero, Fin.ext_iff]
    · intro h1 h2 h3 h4 h5
      simp [fieldMembers, h1, h2, h3, h4, h5, gostring_ofText_empty]

theorem omitempty_present_iff_nonzero_witness :
    sampleAccessPoint.Finite = true ∧
    (∃ members : List (String × JSON NumLit), sampleTower.Marshal = .ok (.obj members) ∧
      sampleTower.PresentIffNonZero members ∧ (sampleTower = CellTower.zero → members = [])) ∧
    (∃ members : List (String × JSON NumLit),
      sampleAccessPoint.Marshal valueStrconv = .ok (.obj members) ∧
      sampleAccessPoint.PresentIffNonZero members ∧
      (sampleAccessPoint.MACAddress = "" → sampleAccessPoint.SignalStrength.isZero = true →
        sampleAccessPoint.Age = 0 → sampleAccessPoint.Channel.val = 0 →
        sampleAccessPoint.SignalToNoiseRatio.isZero = true → members = [])) :=
  ⟨by decide, omitempty_present_iff_nonzero valueStrconv sampleTower sampleAccessPoint (by decide)⟩

/-- Decoding the serialization of the sample request gives the sample request. -/
theorem sampleRequest_Unmarshal :
    GeolocationRequest.Unmarshal valueStrconv (.obj
      [("homeMobileCountryCode", .str "310"), ("radioType", .str "gsm"),
       ("carrier", .str "Vodafone"), ("considerIp", .bool true),
       ("cellTowers", .arr [.obj [("cellId", .str "42"), ("locatonAreaCode", .str "415"),
          ("mobileCountryCode", .str "310"), ("mobileNetworkCode", .str "410")]]),
       ("wifiAccessPoints", .arr [.obj [("macAddress", .str "00:25:9c:cf:1c:ac"),
          ("signalStrength", .num (.float ⟨0xC045800000000000⟩)),
          ("channel", .num (.integer 11))]])]) = .ok sampleRequest := by
  rfl

/-- The decoder on keys in another case, unknown keys, `null`, repeated keys and
values of the wrong kind. -/
theorem Unmarshal_examples :
    GeolocationRequest.Unmarshal valueStrconv (.obj [("CONSIDERIP", .bool true),
        ("unknown", .str "x"), ("carrier", .null), ("Carrier", .str "a"), ("carrier", .str "b")])
      = .ok { GeolocationRequest.zero with ConsiderIP := true, Carrier := "b" } ∧
    GeolocationRequest.Unmarshal valueStrconv (.obj [("carrier", .bool true)])
      = .error (.UnmarshalTypeError "bool" "string") ∧
    GeolocationRequest.Unmarshal valueStrconv (.arr [])
      = .error (.UnmarshalTypeError "array" "maps.GeolocationRequest") := by
  refine ⟨rfl, rfl, rfl⟩

end maps
